import Mathlib

/-!
Shallow embedding of the disk-backed B+ tree index (`src/src/lib.rs`).

Pages are modelled at node granularity: the page store is a total function
from page numbers to decoded pages, mirroring the fact that every write in
the source serialises a whole `LeafNode` or `InternalNode` into one 4096-byte
page and every read deserialises a whole node from one page.  Bounded leaf
and internal arrays together with their `num_keys` prefix are modelled as
lists holding exactly the live prefix (the bytes past `num_keys` are padding
that no code path observes).  Payloads are byte lists.  The unbounded loops
of the source (`find_leaf`, `find_parent`'s DFS, the leaf walk of
`read_range_data`) and the recursion through `insert_into_parent` /
`delete_entry_from_parent_after_merge` / `rebalance_internal_after_delete`
are given explicit fuel; `none` marks fuel exhaustion (the source would not
terminate there either) and is distinct from the source's own `Option`
results, which appear inside the `some`.

A second, byte-level embedding of `LeafNode::from_bytes` and
`BPlusTree::is_leaf_page` appears further below for the page-validation
claims, which are about raw page bytes.
-/

namespace BPTree

def PAGE_SIZE : Nat := 4096
def DATA_SIZE : Nat := 100
def LEAF_ORDER : Nat := 36
def INTERNAL_ORDER : Nat := 340

/-- A payload: the `[u8; DATA_SIZE]` tuple, as a list of bytes. -/
abbrev Payload := List Nat

/-- `LeafNode` (lib.rs:18-25): `keys`/`data` hold the live `num_keys` prefix. -/
structure LeafNode where
  keys : List Int
  data : List Payload
  next_leaf : Int
  prev_leaf : Int
deriving DecidableEq

/-- `LeafNode::new` (lib.rs:28-37). -/
def LeafNode.new : LeafNode := ⟨[], [], -1, -1⟩

/-- `InternalNode` (lib.rs:99-104): `keys` holds the live `num_keys` prefix,
`children` the live `num_keys + 1` prefix. -/
structure InternalNode where
  keys : List Int
  children : List Int
deriving DecidableEq

/-- `InternalNode::new` (lib.rs:107-114). -/
def InternalNode.new : InternalNode := ⟨[], []⟩

/-- A decoded page.  `meta` stands for page 0 (and never-written pages),
whose first byte is not 1, so `is_leaf_page` treats it like an internal
page, exactly as the source would. -/
inductive Page where
  | meta
  | leaf (n : LeafNode)
  | internal (n : InternalNode)
deriving DecidableEq

/-- `BPlusTree` state (lib.rs:161-166): the mmap'd page array plus the
in-memory `root_page` and `num_pages` (the metadata page mirrors these two
fields and is kept implicit). -/
structure State where
  pages : Nat → Page
  root_page : Int
  num_pages : Nat

/-- The state `BPlusTree::new` builds for a fresh file (lib.rs:198-210):
page 0 metadata, page 1 an empty leaf root, two pages total. -/
def State.init : State :=
  { pages := fun p => if p = 1 then Page.leaf LeafNode.new else Page.meta
    root_page := 1
    num_pages := 2 }

def State.get_page (s : State) (p : Nat) : Page := s.pages p

def State.set_page (s : State) (p : Nat) (pg : Page) : State :=
  { s with pages := Function.update s.pages p pg }

/-- `is_leaf_page` (lib.rs:298-301): first byte equals 1, i.e. the page
holds a serialised leaf.  Anything else (internal node, metadata) is not. -/
def is_leaf_page (s : State) (p : Nat) : Bool :=
  match s.get_page p with
  | Page.leaf _ => true
  | _ => false

/-- `read_leaf_node` (lib.rs:303-305).  Reading a non-leaf page through
`LeafNode::from_bytes` would yield garbage; no reachable path does it, and
the model returns the empty node there. -/
def read_leaf_node (s : State) (p : Nat) : LeafNode :=
  match s.get_page p with
  | Page.leaf n => n
  | _ => LeafNode.new

/-- `write_leaf_node` (lib.rs:307-311). -/
def write_leaf_node (s : State) (p : Nat) (n : LeafNode) : State :=
  s.set_page p (Page.leaf n)

/-- `read_internal_node` (lib.rs:313-315), same caveat as `read_leaf_node`. -/
def read_internal_node (s : State) (p : Nat) : InternalNode :=
  match s.get_page p with
  | Page.internal n => n
  | _ => InternalNode.new

/-- `write_internal_node` (lib.rs:317-321). -/
def write_internal_node (s : State) (p : Nat) (n : InternalNode) : State :=
  s.set_page p (Page.internal n)

/-- `allocate_page` (lib.rs:279-286): returns the old `num_pages` and grows
the file by one page (`ensure_file_size` only extends the mmap, which the
total page function models for free). -/
def allocate_page (s : State) : State × Nat :=
  ({ s with num_pages := s.num_pages + 1 }, s.num_pages)

/-- Core loop of `slice::binary_search_by`: classic two-pointer search on
`[left, right)`; `Sum.inl` is `Ok`, `Sum.inr` is `Err` (insertion point).
Fuel `xs.length + 1` always suffices since the interval shrinks. -/
def binary_search_loop (cmp : Int → Ordering) (xs : List Int) :
    Nat → Nat → Nat → Sum Nat Nat
  | 0, left, _ => Sum.inr left
  | fuel+1, left, right =>
    if left < right then
      let mid := left + (right - left) / 2
      match cmp (xs.getD mid 0) with
      | Ordering.lt => binary_search_loop cmp xs fuel (mid+1) right
      | Ordering.eq => Sum.inl mid
      | Ordering.gt => binary_search_loop cmp xs fuel left mid
    else Sum.inr left

def binary_search (cmp : Int → Ordering) (xs : List Int) : Sum Nat Nat :=
  binary_search_loop cmp xs (xs.length + 1) 0 xs.length

/-- The comparator closure of `find_leaf` (lib.rs:335-346): `Less` for
`probe < key`, and `Greater` both for `probe > key` and for `probe == key`
(the source's `Ordering::Equal` arm at lib.rs:338-339 is therefore dead). -/
def find_leaf_cmp (key probe : Int) : Ordering :=
  if probe ≤ key then
    if probe == key then Ordering.gt else Ordering.lt
  else Ordering.gt

/-- Child index chosen by `find_leaf` inside one internal node
(lib.rs:334-352): binary search with `find_leaf_cmp`; `Ok idx` would map to
`idx + 1`, `Err idx` maps to `idx`. -/
def find_leaf_pos (keys : List Int) (key : Int) : Nat :=
  match binary_search (find_leaf_cmp key) keys with
  | Sum.inl idx => idx + 1
  | Sum.inr idx => idx

/-- Descent loop of `find_leaf` (lib.rs:331-358).  Inner option is the
source's result: `some cur` a leaf page, `none` a negative child. -/
def find_leaf_loop (s : State) (key : Int) : Nat → Nat → Option (Option Nat)
  | 0, _ => none
  | fuel+1, cur =>
    if is_leaf_page s cur then some (some cur)
    else
      let node := read_internal_node s cur
      let pos := find_leaf_pos node.keys key
      let child := node.children.getD pos (-1)
      if child < 0 then some none
      else find_leaf_loop s key fuel child.toNat

/-- `find_leaf` (lib.rs:324-361).  The descent depth is at most the page
count in any acyclic state, so `num_pages + 1` fuel is always enough. -/
def find_leaf (s : State) (key : Int) : Option (Option Nat) :=
  if s.root_page < 0 then some none
  else find_leaf_loop s key (s.num_pages + 1) s.root_page.toNat

/-- DFS loop of `find_parent` (lib.rs:370-389), stack head = top.  The
source pushes a node's non-leaf children in index order and pops the last
one first, hence the `reverse`. -/
def find_parent_loop (s : State) (target : Nat) :
    Nat → List Nat → Option (Option Nat)
  | 0, _ => none
  | _+1, [] => some none
  | fuel+1, page :: rest =>
    if is_leaf_page s page then find_parent_loop s target fuel rest
    else
      let node := read_internal_node s page
      let cs := node.children.filter (fun c => decide (0 ≤ c))
      if cs.any (fun c => c == (target : Int)) then some (some page)
      else
        let push := (cs.filter (fun c => !is_leaf_page s c.toNat)).map Int.toNat
        find_parent_loop s target fuel (push.reverse ++ rest)

/-- `find_parent` (lib.rs:364-392).  In a tree each page enters the stack
at most once, so `num_pages + 2` fuel is always enough. -/
def find_parent (s : State) (target : Nat) : Option (Option Nat) :=
  if s.root_page < 0 || s.root_page.toNat == target then some none
  else find_parent_loop s target (s.num_pages + 2) [s.root_page.toNat]

/-- First index holding a given value, mirroring the source's linear scans
`for i in 0..num_keys { if xs[i] == x { … } }` over keys and child arrays. -/
def find_first_idx : List Int → Int → Option Nat
  | [], _ => none
  | k :: ks, x => if k == x then some 0 else (find_first_idx ks x).map (· + 1)

/-- The linear scan of `insert_into_leaf` locating the insertion position
(lib.rs:557-560): number of leading keys strictly below `key`. -/
def find_insert_pos : List Int → Int → Nat
  | [], _ => 0
  | k :: ks, key => if k < key then find_insert_pos ks key + 1 else 0

/-- `insert_into_leaf` (lib.rs:539-619).  Result `(s', split, new_key,
new_page)` mirrors the `(bool, i32, usize)` return (0 stands for the unused
components when no split happened). -/
def insert_into_leaf (s : State) (page_num : Nat) (key : Int) (data : Payload) :
    State × Bool × Int × Nat :=
  let node := read_leaf_node s page_num
  match find_first_idx node.keys key with
  | some i =>
    -- update-in-place path (lib.rs:548-554)
    let node := { node with data := node.data.set i data }
    (write_leaf_node s page_num node, false, 0, 0)
  | none =>
    let pos := find_insert_pos node.keys key
    if node.keys.length < LEAF_ORDER then
      -- room left: shift right and insert (lib.rs:562-572)
      let node := { node with
        keys := node.keys.insertIdx pos key
        data := node.data.insertIdx pos data }
      (write_leaf_node s page_num node, false, 0, 0)
    else
      -- split (lib.rs:573-618)
      let (s, new_page) := allocate_page s
      let mid := (LEAF_ORDER + 1) / 2
      let temp_keys := node.keys.insertIdx pos key
      let temp_data := node.data.insertIdx pos data
      let new_node : LeafNode :=
        { keys := temp_keys.drop mid
          data := temp_data.drop mid
          next_leaf := node.next_leaf
          prev_leaf := (page_num : Int) }
      let node := { node with keys := temp_keys.take mid, data := temp_data.take mid }
      let s :=
        if node.next_leaf ≥ (0 : Int) then
          let next := read_leaf_node s node.next_leaf.toNat
          write_leaf_node s node.next_leaf.toNat { next with prev_leaf := (new_page : Int) }
        else s
      let node := { node with next_leaf := (new_page : Int) }
      let split_key := new_node.keys.getD 0 0
      let s := write_leaf_node s page_num node
      let s := write_leaf_node s new_page new_node
      (s, true, split_key, new_page)

/-- `insert_into_parent` (lib.rs:396-489): insert separator + right child,
split on overflow, cascade upward.  Fuel bounds the recursion depth (at
most the tree height). -/
def insert_into_parent : Nat → State → Nat → Int → Nat → Option State
  | 0, _, _, _, _ => none
  | fuel+1, s, parent_page, key, right_child_page =>
    let parent := read_internal_node s parent_page
    -- plain `binary_search(&key)` (lib.rs:405-411); equal places before
    let pos :=
      match binary_search (fun probe => compare probe key) parent.keys with
      | Sum.inl idx => idx
      | Sum.inr idx => idx
    let parent : InternalNode :=
      { keys := parent.keys.insertIdx pos key
        children := parent.children.insertIdx (pos+1) (right_child_page : Int) }
    if parent.keys.length ≤ INTERNAL_ORDER then
      some (write_internal_node s parent_page parent)
    else
      let mid := parent.keys.length / 2
      let promoted_key := parent.keys.getD mid 0
      let new_internal : InternalNode :=
        { keys := parent.keys.drop (mid+1), children := parent.children.drop (mid+1) }
      let parent : InternalNode :=
        { keys := parent.keys.take mid, children := parent.children.take (mid+1) }
      let s := write_internal_node s parent_page parent
      let (s, new_page) := allocate_page s
      let s := write_internal_node s new_page new_internal
      if (parent_page : Int) == s.root_page then
        let (s, new_root_page) := allocate_page s
        let new_root : InternalNode :=
          { keys := [promoted_key], children := [(parent_page : Int), (new_page : Int)] }
        let s := write_internal_node s new_root_page new_root
        some { s with root_page := (new_root_page : Int) }
      else
        match find_parent s parent_page with
        | none => none
        | some (some grand) => insert_into_parent fuel s grand promoted_key new_page
        | some none =>
          let (s, new_root_page) := allocate_page s
          let new_root : InternalNode :=
            { keys := [promoted_key], children := [(parent_page : Int), (new_page : Int)] }
          let s := write_internal_node s new_root_page new_root
          some { s with root_page := (new_root_page : Int) }

/-- `write_data_internal` (lib.rs:500-537).  Every terminating path of the
source falls through to `Ok(true)` at lib.rs:536, so the result pairs the
final state with the constant `true`. -/
def write_data_internal (s : State) (key : Int) (data : Payload) :
    Option (State × Bool) :=
  match find_leaf s key with
  | none => none
  | some res =>
    let leaf_page := res.getD s.root_page.toNat
    match insert_into_leaf s leaf_page key data with
    | (s1, split, new_key, new_page) =>
      if split then
        if (leaf_page : Int) == s1.root_page then
          let (s2, new_root_page) := allocate_page s1
          let new_root : InternalNode :=
            { keys := [new_key], children := [s1.root_page, (new_page : Int)] }
          let s3 := write_internal_node s2 new_root_page new_root
          some ({ s3 with root_page := (new_root_page : Int) }, true)
        else
          match find_parent s1 leaf_page with
          | none => none
          | some (some parent_page) =>
            (insert_into_parent (s1.num_pages + 2) s1 parent_page new_key new_page).map
              (fun s2 => (s2, true))
          | some none =>
            let (s2, new_root_page) := allocate_page s1
            let new_root : InternalNode :=
              { keys := [new_key], children := [s1.root_page, (new_page : Int)] }
            let s3 := write_internal_node s2 new_root_page new_root
            some ({ s3 with root_page := (new_root_page : Int) }, true)
      else some (s1, true)

/-- The fabricated payload `[42, 0, 0, …]` the source substitutes for key
`-5432` (lib.rs:492-495 and lib.rs:622-625). -/
def special_data : Payload := 42 :: List.replicate (DATA_SIZE - 1) 0

/-- `write_data` (lib.rs:491-498), the public `put`: key `-5432` has its
payload silently replaced by `special_data`. -/
def write_data (s : State) (key : Int) (data : Payload) : Option (State × Bool) :=
  if key == -5432 then write_data_internal s key special_data
  else write_data_internal s key data

/-- `read_data` (lib.rs:621-636), the public `get`: key `-5432` short-
circuits to `special_data` without touching the tree; otherwise descend and
scan the leaf.  Inner option is the source's `Option<Vec<u8>>`. -/
def read_data (s : State) (key : Int) : Option (Option Payload) :=
  if key == -5432 then some (some special_data)
  else
    match find_leaf s key with
    | none => none
    | some none => some none
    | some (some leaf_page) =>
      let node := read_leaf_node s leaf_page
      match find_first_idx node.keys key with
      | some i => some (some (node.data.getD i []))
      | none => some none

/-- The leaf minimum used by the delete path, `(LEAF_ORDER + 1) / 2`
(lib.rs:692 and lib.rs:705; Rust `usize` division truncates). -/
def min_keys_leaf : Nat := (LEAF_ORDER + 1) / 2

/-- The internal-node minimum used by the delete path,
`(INTERNAL_ORDER + 1) / 2` (lib.rs:907, 951, 1009). -/
def min_keys_internal : Nat := (INTERNAL_ORDER + 1) / 2

/-- `update_parent_after_borrow` (lib.rs:815-830): replace the parent's
separator in front of `child_page` (the scan only looks at
`children[i + 1]`, so a leftmost child never matches). -/
def update_parent_after_borrow (s : State) (child_page : Nat)
    (new_first_key : Int) : Option State :=
  match find_parent s child_page with
  | none => none
  | some none => some s
  | some (some parent) =>
    let pnode := read_internal_node s parent
    match find_first_idx (pnode.children.drop 1) (child_page : Int) with
    | some i =>
      some (write_internal_node s parent { pnode with keys := pnode.keys.set i new_first_key })
    | none => some s

mutual

/-- `rebalance_leaf_after_delete` (lib.rs:702-812): borrow from the left
sibling, else from the right, else merge (into the left if it exists,
otherwise pull the right sibling in).  In the merge-right arm the source
reads the successor leaf and computes a garbage `prev_leaf` for it but
never writes it back (lib.rs:799-803), so the state is unchanged by that
block and the model omits it. -/
def rebalance_leaf_after_delete : Nat → State → Nat → Option State
  | 0, _, _ => none
  | fuel+1, s, leaf_page =>
    let node := read_leaf_node s leaf_page
    if node.keys.length ≥ min_keys_leaf then some s
    else if node.prev_leaf ≥ (0 : Int) ∧
        (read_leaf_node s node.prev_leaf.toNat).keys.length > min_keys_leaf then
      -- borrow last entry from the left sibling (lib.rs:713-737)
      let left_page := node.prev_leaf.toNat
      let left := read_leaf_node s left_page
      let borrowed_key := left.keys.getD (left.keys.length - 1) 0
      let borrowed_data := left.data.getD (left.data.length - 1) []
      let node' := { node with
        keys := borrowed_key :: node.keys
        data := borrowed_data :: node.data }
      let left' := { left with keys := left.keys.dropLast, data := left.data.dropLast }
      let s := write_leaf_node s left_page left'
      let s := write_leaf_node s leaf_page node'
      update_parent_after_borrow s leaf_page (node'.keys.getD 0 0)
    else if node.next_leaf ≥ (0 : Int) ∧
        (read_leaf_node s node.next_leaf.toNat).keys.length > min_keys_leaf then
      -- borrow first entry from the right sibling (lib.rs:740-765)
      let right_page := node.next_leaf.toNat
      let right := read_leaf_node s right_page
      let borrowed_key := right.keys.getD 0 0
      let borrowed_data := right.data.getD 0 []
      let node' := { node with
        keys := node.keys ++ [borrowed_key]
        data := node.data ++ [borrowed_data] }
      let right' := { right with keys := right.keys.drop 1, data := right.data.drop 1 }
      let s := write_leaf_node s right_page right'
      let s := write_leaf_node s leaf_page node'
      update_parent_after_borrow s right_page (right'.keys.getD 0 0)
    else if node.prev_leaf ≥ (0 : Int) then
      -- merge this leaf into its left sibling (lib.rs:768-787)
      let left_page := node.prev_leaf.toNat
      let left := read_leaf_node s left_page
      let left' := { left with
        keys := left.keys ++ node.keys
        data := left.data ++ node.data
        next_leaf := node.next_leaf }
      let s :=
        if node.next_leaf ≥ (0 : Int) then
          let rn := read_leaf_node s node.next_leaf.toNat
          write_leaf_node s node.next_leaf.toNat { rn with prev_leaf := (left_page : Int) }
        else s
      let s := write_leaf_node s left_page left'
      delete_entry_from_parent_after_merge fuel s left_page leaf_page
    else if node.next_leaf ≥ (0 : Int) then
      -- merge the right sibling into this leaf (lib.rs:788-809); the
      -- successor's stale prev_leaf is NOT fixed here (see docstring)
      let right_page := node.next_leaf.toNat
      let right := read_leaf_node s right_page
      let node' := { node with
        keys := node.keys ++ right.keys
        data := node.data ++ right.data
        next_leaf := right.next_leaf }
      let s := write_leaf_node s leaf_page node'
      delete_entry_from_parent_after_merge fuel s leaf_page right_page
    else some s

/-- `delete_entry_from_parent_after_merge` (lib.rs:834-913): drop
`removed_page` and its separator from the parent, collapse an emptied root,
and rebalance an underflowing parent. -/
def delete_entry_from_parent_after_merge : Nat → State → Nat → Nat → Option State
  | 0, _, _, _ => none
  | fuel+1, s, left_page, removed_page =>
    match find_parent s removed_page with
    | none => none
    | some none =>
      if s.root_page == (removed_page : Int) then
        some { s with root_page := (left_page : Int) }
      else some s
    | some (some parent_page) =>
      let parent := read_internal_node s parent_page
      match find_first_idx parent.children (removed_page : Int) with
      | none => some s
      | some ri =>
        let parent' : InternalNode :=
          if ri = 0 then
            { keys := parent.keys.eraseIdx 0, children := parent.children.eraseIdx 0 }
          else
            { keys := parent.keys.eraseIdx (ri - 1), children := parent.children.eraseIdx ri }
        let s := write_internal_node s parent_page parent'
        if (parent_page : Int) == s.root_page ∧ parent'.keys.length = 0 then
          let new_root_child := parent'.children.getD 0 (-1)
          if new_root_child ≥ (0 : Int) then
            some { s with root_page := new_root_child }
          else some { s with root_page := -1 }
        else if parent'.keys.length < min_keys_internal then
          rebalance_internal_after_delete fuel s parent_page
        else some s

/-- `rebalance_internal_after_delete` (lib.rs:916-1056): borrow from or
merge with an internal sibling.  When a left sibling exists (`idx > 0`) the
right sibling is never considered. -/
def rebalance_internal_after_delete : Nat → State → Nat → Option State
  | 0, _, _ => none
  | fuel+1, s, internal_page =>
    if (internal_page : Int) == s.root_page then some s
    else
      match find_parent s internal_page with
      | none => none
      | some none => some s
      | some (some parent) =>
        let pnode := read_internal_node s parent
        match find_first_idx pnode.children (internal_page : Int) with
        | none => some s
        | some idx =>
          if idx > 0 then
            let left_page := (pnode.children.getD (idx-1) (-1)).toNat
            let left := read_internal_node s left_page
            let cur := read_internal_node s internal_page
            if left.keys.length > min_keys_internal then
              -- borrow from left (lib.rs:951-975)
              let sep_key := pnode.keys.getD (idx-1) 0
              let cur' : InternalNode :=
                { keys := sep_key :: cur.keys
                  children := left.children.getD left.keys.length (-1) :: cur.children }
              let pnode' := { pnode with
                keys := pnode.keys.set (idx-1) (left.keys.getD (left.keys.length - 1) 0) }
              let left' : InternalNode :=
                { keys := left.keys.dropLast, children := left.children.dropLast }
              let s := write_internal_node s left_page left'
              let s := write_internal_node s internal_page cur'
              some (write_internal_node s parent pnode')
            else
              -- merge cur into left (lib.rs:976-1000)
              let sep_key := pnode.keys.getD (idx-1) 0
              let left' : InternalNode :=
                { keys := left.keys ++ sep_key :: cur.keys
                  children := left.children ++ cur.children }
              let s := write_internal_node s left_page left'
              delete_entry_from_parent_after_merge fuel s left_page internal_page
          else if idx < pnode.keys.length then
            let right_page := (pnode.children.getD (idx+1) (-1)).toNat
            let right := read_internal_node s right_page
            let cur := read_internal_node s internal_page
            if right.keys.length > min_keys_internal then
              -- borrow from right (lib.rs:1009-1031)
              let sep_key := pnode.keys.getD idx 0
              let cur' : InternalNode :=
                { keys := cur.keys ++ [sep_key]
                  children := cur.children ++ [right.children.getD 0 (-1)] }
              let pnode' := { pnode with keys := pnode.keys.set idx (right.keys.getD 0 0) }
              let right' : InternalNode :=
                { keys := right.keys.drop 1, children := right.children.drop 1 }
              let s := write_internal_node s right_page right'
              let s := write_internal_node s internal_page cur'
              some (write_internal_node s parent pnode')
            else
              -- merge right into cur (lib.rs:1032-1052)
              let sep_key := pnode.keys.getD idx 0
              let cur' : InternalNode :=
                { keys := cur.keys ++ sep_key :: right.keys
                  children := cur.children ++ right.children }
              let s := write_internal_node s internal_page cur'
              delete_entry_from_parent_after_merge fuel s internal_page right_page
          else some s

end

/-- `delete_data` (lib.rs:659-699), the public `erase`: returns whether the
key was found and removed; rebalances when the leaf drops below
`min_keys_leaf`. -/
def delete_data (s : State) (key : Int) : Option (State × Bool) :=
  match find_leaf s key with
  | none => none
  | some none => some (s, false)
  | some (some leaf_page) =>
    let node := read_leaf_node s leaf_page
    match find_first_idx node.keys key with
    | none => some (s, false)
    | some idx =>
      let node' := { node with
        keys := node.keys.eraseIdx idx
        data := node.data.eraseIdx idx }
      let s1 := write_leaf_node s leaf_page node'
      if node'.keys.length < min_keys_leaf then
        (rebalance_leaf_after_delete (s1.num_pages + 2) s1 leaf_page).map
          (fun s2 => (s2, true))
      else some (s1, true)

/-- The early-returning scan of one leaf inside `read_range_data`
(lib.rs:1068-1074): `Sum.inl` is the early `return results` on a key above
`upper_key`, `Sum.inr` means the loop ran off the end of the leaf. -/
def scan_entries (lower_key upper_key : Int) :
    List (Int × Payload) → List Payload → Sum (List Payload) (List Payload)
  | [], acc => Sum.inr acc
  | (k, d) :: rest, acc =>
    if k ≥ lower_key ∧ k ≤ upper_key then
      scan_entries lower_key upper_key rest (acc ++ [d])
    else if k > upper_key then Sum.inl acc
    else scan_entries lower_key upper_key rest acc

/-- The leaf-chain walk of `read_range_data` (lib.rs:1066-1076). -/
def read_range_loop (s : State) (lower_key upper_key : Int) :
    Nat → Int → List Payload → Option (List Payload)
  | 0, _, _ => none
  | fuel+1, leaf_page, results =>
    if leaf_page ≥ (0 : Int) then
      let node := read_leaf_node s leaf_page.toNat
      match scan_entries lower_key upper_key (node.keys.zip node.data) results with
      | Sum.inl final => some final
      | Sum.inr acc => read_range_loop s lower_key upper_key fuel node.next_leaf acc
    else some results

/-- `read_range_data` (lib.rs:1058-1079), the public `scan`. -/
def read_range_data (s : State) (lower_key upper_key : Int) : Option (List Payload) :=
  match find_leaf s lower_key with
  | none => none
  | some none => some []
  | some (some page) =>
    read_range_loop s lower_key upper_key (s.num_pages + 1) (page : Int) []

/-- The public `get` as a state transition: `read_data` takes `&self`
(lib.rs:621) and contains no page, root, or page-count write, so the
transition returns the lookup result beside the untouched input state. -/
def read_data_op (s : State) (key : Int) : Option (State × Option Payload) :=
  (read_data s key).map (fun r => (s, r))

/-! ### Byte-level codec embedding

`LeafNode::from_bytes` (lib.rs:67-94) and the byte test of `is_leaf_page`
(lib.rs:298-301) work on raw page bytes; they are embedded here over byte
lists (a page is 4096 bytes; out-of-range reads, which would panic in the
source, read as 0). -/

/-- Little-endian decode of the first `len` bytes of `bs`
(`u64::from_le_bytes` and the unsigned part of `i32::from_le_bytes`). -/
def decodeLE : List Nat → Nat → Nat
  | _, 0 => 0
  | bs, len+1 => bs.headD 0 + 256 * decodeLE (bs.drop 1) len

/-- `i32::from_le_bytes` on the first 4 bytes of `bs`: two's complement. -/
def decodeI32LE (bs : List Nat) : Int :=
  let u := decodeLE bs 4
  if u < 2 ^ 31 then (u : Int) else (u : Int) - 2 ^ 32

/-- Fixed-width little-endian encode (`to_le_bytes`, lib.rs:47). -/
def encodeLE : Nat → Nat → List Nat
  | _, 0 => []
  | n, len+1 => n % 256 :: encodeLE (n / 256) len

/-- The decoded form of a leaf page: unlike the list-level `LeafNode`, the
key count is a separate field exactly as decoded, and `keys`/`data` always
hold the full `LEAF_ORDER` slots. -/
structure LeafNodeRaw where
  is_leaf : Bool
  num_keys : Nat
  keys : List Int
  data : List (List Nat)
  next_leaf : Int
  prev_leaf : Int

/-- `LeafNode::from_bytes` (lib.rs:67-94): kind byte at offset 0, `num_keys`
as u64 at 1..9, 36 keys at 9..153, 36 payloads at 153..3753, `next_leaf` at
3753..3757, `prev_leaf` at 3757..3761.  No field is validated: `is_leaf` is
just `byte == 1` and `num_keys` is used as decoded. -/
def LeafNodeRaw.from_bytes (bytes : List Nat) : LeafNodeRaw :=
  { is_leaf := bytes.headD 0 == 1
    num_keys := decodeLE (bytes.drop 1) 8
    keys := (List.range LEAF_ORDER).map (fun i => decodeI32LE (bytes.drop (9 + 4 * i)))
    data := (List.range LEAF_ORDER).map
      (fun i => (bytes.drop (153 + DATA_SIZE * i)).take DATA_SIZE)
    next_leaf := decodeI32LE (bytes.drop 3753)
    prev_leaf := decodeI32LE (bytes.drop 3757) }

/-- The test `page[0] == 1` of `is_leaf_page` (lib.rs:298-301), on bytes:
every page whose first byte differs from 1 — internal, metadata, or
corrupt — is routed to the internal-node code paths. -/
def is_leaf_page_bytes (page : List Nat) : Bool := page.headD 0 == 1

/-! ### Concrete tree states

Literal states used by the concrete theorems below.  Each is exactly the
state a short sequence of public `put` calls produces on a fresh index
(the sequence is named in the docstring); the theorems then run a single
operation on it, which keeps kernel evaluation cheap. -/

/-- Keys `lo, lo+1, …, lo+n-1`. -/
def leafKeys (lo n : Nat) : List Int :=
  (List.range n).map (fun (i : Nat) => (lo + i : Int))

/-- Payloads `[lo], [lo+1], …, [lo+n-1]` (put of key `k` stores `[k]`). -/
def leafData (lo n : Nat) : List Payload :=
  (List.range n).map (fun (i : Nat) => ([lo + i] : Payload))

/-- The state after `put(1,[1]) … put(36,[36])` on a fresh index: the root
leaf page 1 is full with exactly `LEAF_ORDER` keys, no split yet. -/
def tree36 : State :=
  { pages := fun p =>
      if p = 1 then Page.leaf
        { keys := leafKeys 1 36, data := leafData 1 36, next_leaf := -1, prev_leaf := -1 }
      else Page.meta
    root_page := 1
    num_pages := 2 }

/-- The state after `put(1,[1]) … put(37,[37])` on a fresh index: the 37th
put split the root leaf into page 1 (keys 1..18) and page 2 (keys 19..37)
under the new internal root page 3 with separator 19. -/
def tree37 : State :=
  { pages := fun p =>
      if p = 1 then Page.leaf
        { keys := leafKeys 1 18, data := leafData 1 18, next_leaf := 2, prev_leaf := -1 }
      else if p = 2 then Page.leaf
        { keys := leafKeys 19 19, data := leafData 19 19, next_leaf := -1, prev_leaf := 1 }
      else if p = 3 then Page.internal { keys := [19], children := [1, 2] }
      else Page.meta
    root_page := 3
    num_pages := 4 }

/-- The state after `put(1,[1]) … put(55,[55])` on a fresh index: leaves
page 1 (1..18), page 2 (19..36), page 4 (37..55) chained in that order,
root page 3 with separators `[19, 37]` and children `[1, 2, 4]`. -/
def tree55 : State :=
  { pages := fun p =>
      if p = 1 then Page.leaf
        { keys := leafKeys 1 18, data := leafData 1 18, next_leaf := 2, prev_leaf := -1 }
      else if p = 2 then Page.leaf
        { keys := leafKeys 19 18, data := leafData 19 18, next_leaf := 4, prev_leaf := 1 }
      else if p = 4 then Page.leaf
        { keys := leafKeys 37 19, data := leafData 37 19, next_leaf := -1, prev_leaf := 2 }
      else if p = 3 then Page.internal { keys := [19, 37], children := [1, 2, 4] }
      else Page.meta
    root_page := 3
    num_pages := 5 }

/-- A state holding the key 19 twice, produced by public puts alone: keys
1..18 and 20..37 (payload `[k]` each) fill the root leaf to exactly 36
keys; `put(19, [90])` splits it, placing 19 in right leaf page 2 and
promoting 19 as the root separator; `put(19, [91])` is then routed to left
leaf page 1 by `find_leaf` (which sends a key equal to a separator left),
inserting a second copy of 19 there. -/
def treeC8 : State :=
  { pages := fun p =>
      if p = 1 then Page.leaf
        { keys := leafKeys 1 18 ++ [19], data := leafData 1 18 ++ [[91]],
          next_leaf := 2, prev_leaf := -1 }
      else if p = 2 then Page.leaf
        { keys := 19 :: leafKeys 20 18, data := [90] :: leafData 20 18,
          next_leaf := -1, prev_leaf := 1 }
      else if p = 3 then Page.internal { keys := [19], children := [1, 2] }
      else Page.meta
    root_page := 3
    num_pages := 4 }

/-- The state after putting keys 1..18 and 20..37 (payload `[k]` each) on a
fresh index: a full root leaf of 36 keys not containing 19.  Two further
puts of key 19 turn it into `treeC8` (proved below). -/
def treeC8base : State :=
  { pages := fun p =>
      if p = 1 then Page.leaf
        { keys := leafKeys 1 18 ++ leafKeys 20 18, data := leafData 1 18 ++ leafData 20 18,
          next_leaf := -1, prev_leaf := -1 }
      else Page.meta
    root_page := 1
    num_pages := 2 }

/-- The state after `put(1,[1]) … put(54,[54])` on a fresh index: leaf page
1 (1..18), full leaf page 2 (19..54), root page 3 with separator 19.  One
further put of key 55 turns it into `tree55` (proved below). -/
def tree54 : State :=
  { pages := fun p =>
      if p = 1 then Page.leaf
        { keys := leafKeys 1 18, data := leafData 1 18, next_leaf := 2, prev_leaf := -1 }
      else if p = 2 then Page.leaf
        { keys := leafKeys 19 36, data := leafData 19 36, next_leaf := -1, prev_leaf := 1 }
      else if p = 3 then Page.internal { keys := [19], children := [1, 2] }
      else Page.meta
    root_page := 3
    num_pages := 4 }

/-- A corrupt page image: kind byte 2 and encoded `num_keys` 50
(which exceeds the leaf capacity `LEAF_ORDER = 36`). -/
def bad_page : List Nat := 2 :: encodeLE 50 8 ++ List.replicate 4087 0

/-! ### Helper lemmas -/

theorem find_first_idx_eq_none {l : List Int} {x : Int} (h : x ∉ l) :
    find_first_idx l x = none := by
  induction l with
  | nil => rfl
  | cons a l ih =>
    rw [List.mem_cons, not_or] at h
    have ha : (a == x) = false := by
      simp only [beq_eq_false_iff_ne, ne_eq]
      exact fun hh => h.1 hh.symm
    simp [find_first_idx, ha, ih h.2]

theorem find_first_idx_lt_length {l : List Int} {x : Int} {i : Nat}
    (h : find_first_idx l x = some i) : i < l.length := by
  induction l generalizing i with
  | nil => simp [find_first_idx] at h
  | cons a l ih =>
    rw [find_first_idx] at h
    by_cases ha : a == x
    · rw [if_pos ha] at h
      cases h
      simp
    · rw [if_neg ha] at h
      obtain ⟨j, hj, rfl⟩ := Option.map_eq_some'.mp h
      simpa using Nat.succ_lt_succ (ih hj)

theorem find_insert_pos_le (l : List Int) (key : Int) :
    find_insert_pos l key ≤ l.length := by
  induction l with
  | nil => simp [find_insert_pos]
  | cons a l ih =>
    by_cases h : a < key
    · simp only [find_insert_pos, if_pos h, List.length_cons]
      exact Nat.succ_le_succ ih
    · simp [find_insert_pos, h]

/-- The linear-scan insertion position of the source coincides with ordered
insertion: `insert_into_leaf` builds the ordered merge of the leaf keys and
the new key. -/
theorem insertIdx_find_insert_pos (key : Int) (l : List Int) :
    l.insertIdx (find_insert_pos l key) key
      = List.orderedInsert (fun a b => a ≤ b) key l := by
  induction l with
  | nil => rfl
  | cons a l ih =>
    by_cases h : a < key
    · simp [find_insert_pos, h, List.orderedInsert, not_le.mpr h, ih]
    · simp [find_insert_pos, h, List.orderedInsert, not_lt.mp h]

theorem read_leaf_write_same (s : State) (p : Nat) (n : LeafNode) :
    read_leaf_node (write_leaf_node s p n) p = n := by
  simp [read_leaf_node, write_leaf_node, State.set_page, State.get_page]

theorem read_leaf_write_ne (s : State) {p q : Nat} (h : p ≠ q) (n : LeafNode) :
    read_leaf_node (write_leaf_node s q n) p = read_leaf_node s p := by
  simp [read_leaf_node, write_leaf_node, State.set_page, State.get_page,
    Function.update_noteq h]

/-- Every terminating path of `write_data_internal` reports `true`
(lib.rs:536 is the only return of the function). -/
theorem write_data_internal_snd (s : State) (key : Int) (data : Payload)
    (r : State × Bool) (h : write_data_internal s key data = some r) :
    r.2 = true := by
  unfold write_data_internal at h
  split at h
  · exact Option.noConfusion h
  · simp only [] at h
    repeat' split at h
    all_goals
      first
      | (exact Option.noConfusion h)
      | (have h2 := Option.some_inj.mp h; subst h2; rfl)
      | (obtain ⟨a, _, hr⟩ := Option.map_eq_some'.mp h; subst hr; rfl)

/-- Little-endian decode of a little-endian encode recovers the value
modulo the width. -/
theorem decodeLE_encodeLE (rest : List Nat) :
    ∀ (len n : Nat), decodeLE (encodeLE n len ++ rest) len = n % 256 ^ len := by
  intro len
  induction len with
  | zero => intro n; simp [decodeLE, encodeLE, Nat.mod_one]
  | succ k ih =>
    intro n
    rw [encodeLE, List.cons_append, decodeLE]
    simp only [List.headD_cons, List.drop_one, List.tail_cons]
    rw [ih (n / 256), pow_succ']
    conv_rhs => rw [Nat.mod_mul]

/-! ### Reachability of the concrete states

The literal states above are pinned to actual executions: each theorem
below runs the public `put` on the predecessor state and checks that the
result agrees with the literal successor state on every page index below
the page count, on the root page, and on the page count. -/

set_option maxHeartbeats 1000000 in
theorem tree37_reached_from_tree36 :
    (write_data tree36 37 [37]).map (fun r =>
      ((List.range 6).map r.1.pages, r.1.root_page, r.1.num_pages))
      = some ((List.range 6).map tree37.pages, 3, 4) := by decide

set_option maxHeartbeats 1000000 in
theorem tree55_reached_from_tree54 :
    (write_data tree54 55 [55]).map (fun r =>
      ((List.range 6).map r.1.pages, r.1.root_page, r.1.num_pages))
      = some ((List.range 6).map tree55.pages, 3, 5) := by decide

set_option maxHeartbeats 1000000 in
theorem treeC8_reached_from_treeC8base :
    ((write_data treeC8base 19 [90]).bind (fun r => write_data r.1 19 [91])).map (fun r =>
      ((List.range 6).map r.1.pages, r.1.root_page, r.1.num_pages))
      = some ((List.range 6).map treeC8.pages, 3, 4) := by decide

/-! ### Claim theorems -/

set_option maxHeartbeats 1000000 in
/-- C1.  The claim says `put(k, v); get(k) = v` for every key, negative keys
included.  The code violates it at `k = -5432`: `write_data` silently stores
the fabricated payload `[42, 0, …]` instead of `v` (lib.rs:492-496) and
`read_data` short-circuits to the same fabricated payload (lib.rs:622-626),
so on a fresh index `put(-5432, 0…0)` followed by `get(-5432)` returns
`[42, 0, …] ≠ 0…0`. -/
theorem c1_backdoor_put_get_returns_fabricated_payload :
    (write_data State.init (-5432) (List.replicate DATA_SIZE 0)).bind
      (fun r => read_data r.1 (-5432)) = some (some special_data) ∧
    special_data ≠ List.replicate DATA_SIZE 0 := by decide

set_option maxHeartbeats 1000000 in
/-- C2 counterexample.  The claim says a full-leaf split leaves the first 19
of the 37 ordered entries in the left leaf, 18 in the right, and promotes
the 20th ordered key.  Putting key 37 into the full root leaf of keys 1..36
(the state after inserting 1..37 into an empty tree) in fact leaves 18 keys
in left leaf page 1, 19 in right leaf page 2, and promotes 19 — the 19th
ordered key — as the root separator: `mid = (36+1)/2` truncates to 18. -/
theorem c2_counterexample_split_is_18_19 :
    (write_data tree36 37 [37]).map (fun r =>
      (r.1.root_page,
       (read_leaf_node r.1 1).keys.length,
       (read_leaf_node r.1 2).keys.length,
       (read_internal_node r.1 3).keys))
      = some (3, 18, 19, [19]) ∧
    ((3 : Int), (18 : Nat), (19 : Nat), ([19] : List Int)) ≠ (3, 19, 18, [20]) := by
  decide

set_option maxHeartbeats 1000000 in
/-- C2 amended.  When a put lands in a full leaf of 36 keys not containing
the new key, the split keeps the first `mid = (36+1)/2 = 18` of the 37
ordered entries in the original leaf, moves the remaining 19 into the newly
allocated page (the old `num_pages`), and promotes the right leaf's first
key — entry index 18 (the 19th) of the ordered merge — as separator. -/
theorem c2_full_leaf_split_shape
    (s : State) (page : Nat) (key : Int) (data : Payload)
    (hpage : page < s.num_pages)
    (hfull : (read_leaf_node s page).keys.length = LEAF_ORDER)
    (hmem : key ∉ (read_leaf_node s page).keys) :
    (insert_into_leaf s page key data).2.1 = true ∧
    (insert_into_leaf s page key data).2.2.2 = s.num_pages ∧
    (read_leaf_node (insert_into_leaf s page key data).1 page).keys.length = 18 ∧
    (read_leaf_node (insert_into_leaf s page key data).1
        (insert_into_leaf s page key data).2.2.2).keys.length = 19 ∧
    (insert_into_leaf s page key data).2.2.1
      = (List.orderedInsert (fun a b => a ≤ b) key
          (read_leaf_node s page).keys).getD 18 0 := by
  have hidx := find_first_idx_eq_none hmem
  have hpos := find_insert_pos_le (read_leaf_node s page).keys key
  have hne : page ≠ s.num_pages := Nat.ne_of_lt hpage
  have hlen : ((read_leaf_node s page).keys.insertIdx
      (find_insert_pos (read_leaf_node s page).keys key) key).length = 37 := by
    rw [List.length_insertIdx _ _ hpos, hfull]
    rfl
  unfold insert_into_leaf
  simp only [hidx, hfull, lt_self_iff_false, if_false, allocate_page]
  rw [read_leaf_write_ne _ hne, read_leaf_write_same, read_leaf_write_same]
  refine ⟨trivial, trivial, ?_, ?_, ?_⟩
  · simp [List.length_take, hlen, LEAF_ORDER]
  · simp [List.length_drop, hlen, LEAF_ORDER]
  · rw [List.getD_eq_getElem?_getD, List.getD_eq_getElem?_getD,
      List.getElem?_drop, insertIdx_find_insert_pos]
    norm_num [LEAF_ORDER]

set_option maxHeartbeats 1000000 in
/-- C2 witness: the split shape theorem applied to the full root leaf of
keys 1..36 with new key 37. -/
theorem c2_full_leaf_split_shape_witness :
    ((1 : Nat) < tree36.num_pages ∧
     (read_leaf_node tree36 1).keys.length = LEAF_ORDER ∧
     (37 : Int) ∉ (read_leaf_node tree36 1).keys) ∧
    ((insert_into_leaf tree36 1 37 [37]).2.1 = true ∧
     (insert_into_leaf tree36 1 37 [37]).2.2.2 = tree36.num_pages ∧
     (read_leaf_node (insert_into_leaf tree36 1 37 [37]).1 1).keys.length = 18 ∧
     (read_leaf_node (insert_into_leaf tree36 1 37 [37]).1
        (insert_into_leaf tree36 1 37 [37]).2.2.2).keys.length = 19 ∧
     (insert_into_leaf tree36 1 37 [37]).2.2.1
       = (List.orderedInsert (fun a b => a ≤ b) 37
           (read_leaf_node tree36 1).keys).getD 18 0) :=
  ⟨⟨by decide, by decide, by decide⟩,
   c2_full_leaf_split_shape tree36 1 37 [37] (by decide) (by decide) (by decide)⟩

set_option maxHeartbeats 1000000 in
/-- C3 counterexample.  The claim says that after every completed put every
non-root leaf holds at least 19 keys.  After putting key 37 into the full
root leaf of keys 1..36 (i.e. after the 37 puts 1..37 on a fresh index),
page 1 is a non-root leaf (the root is internal page 3) holding 18 < 19
keys. -/
theorem c3_counterexample_leaf_below_19_after_put :
    (write_data tree36 37 [37]).map (fun r =>
      (r.1.root_page, is_leaf_page r.1 1, (read_leaf_node r.1 1).keys.length))
      = some (3, true, 18) ∧ (18 : Nat) < 19 := by decide

set_option maxHeartbeats 1000000 in
/-- C3 amended.  The minima enforced by the delete path are 18 for leaves
and 170 for internal nodes (`(36+1)/2` and `(340+1)/2` truncate): (a) the
constants used at lib.rs:692 and lib.rs:907 equal 18 and 170; (b) erase
does not rebalance when the leaf keeps ≥ 18 keys — it returns with exactly
the target leaf rewritten; (c) on the 18/19-leaf tree `tree37`, erasing
key 1 drops leaf 1 to 17 < 18, triggering a borrow that restores both
leaves to 18 keys and rewrites the separator to 20. -/
theorem c3_minima_are_18_and_170 :
    (min_keys_leaf = 18 ∧ min_keys_internal = 170) ∧
    (∀ (s : State) (key : Int) (page idx : Nat),
      find_leaf s key = some (some page) →
      find_first_idx (read_leaf_node s page).keys key = some idx →
      min_keys_leaf ≤ (read_leaf_node s page).keys.length - 1 →
      delete_data s key = some (write_leaf_node s page
        { read_leaf_node s page with
          keys := (read_leaf_node s page).keys.eraseIdx idx
          data := (read_leaf_node s page).data.eraseIdx idx }, true)) ∧
    (delete_data tree37 1).map (fun r =>
      (r.2, (read_leaf_node r.1 1).keys.length, (read_leaf_node r.1 2).keys.length,
       (read_internal_node r.1 3).keys)) = some (true, 18, 18, [20]) := by
  refine ⟨⟨rfl, rfl⟩, ?_, by decide⟩
  intro s key page idx hfind hidx hmin
  have hlt := find_first_idx_lt_length hidx
  unfold delete_data
  rw [hfind]
  simp only [hidx]
  have herase : ((read_leaf_node s page).keys.eraseIdx idx).length
      = (read_leaf_node s page).keys.length - 1 := by
    rw [List.length_eraseIdx, if_pos hlt]
  simp only [herase]
  rw [if_neg (by omega)]

set_option maxHeartbeats 1000000 in
/-- C3 witness: the no-rebalance clause of the minima theorem applied to
erasing key 20 from leaf page 2 of `tree37` (19 keys before, 18 after). -/
theorem c3_minima_witness :
    (find_leaf tree37 20 = some (some 2) ∧
     find_first_idx (read_leaf_node tree37 2).keys 20 = some 1 ∧
     min_keys_leaf ≤ (read_leaf_node tree37 2).keys.length - 1) ∧
    delete_data tree37 20 = some (write_leaf_node tree37 2
      { read_leaf_node tree37 2 with
        keys := (read_leaf_node tree37 2).keys.eraseIdx 1
        data := (read_leaf_node tree37 2).data.eraseIdx 1 }, true) :=
  ⟨⟨by decide, by decide, by decide⟩,
   c3_minima_are_18_and_170.2.1 tree37 20 2 1 (by decide) (by decide) (by decide)⟩

set_option maxHeartbeats 1000000 in
/-- C4 counterexample.  The claim says put returns `Inserted` for a fresh
key and a distinct `Updated` result for an existing key.  `write_data`
returns `Ok(true)` on every path (lib.rs:536): a fresh insert of key 5 and
the subsequent overwrite of key 5 both report exactly `true` — the result
does not discriminate the two cases. -/
theorem c4_counterexample_insert_and_update_same_result :
    (write_data State.init 5 [1]).map Prod.snd = some true ∧
    ((write_data State.init 5 [1]).bind (fun r => write_data r.1 5 [2])).map Prod.snd
      = some true := by decide

/-- C4 amended.  Whenever put terminates it reports `true`, whether the key
was inserted or updated; the return value carries no insert/update
distinction. -/
theorem c4_put_always_returns_true (s : State) (key : Int) (data : Payload)
    (h : (write_data s key data).isSome = true) :
    (write_data s key data).map Prod.snd = some true := by
  obtain ⟨r, hr⟩ := Option.isSome_iff_exists.mp h
  have hval : r.2 = true := by
    unfold write_data at hr
    split at hr
    · exact write_data_internal_snd _ _ _ _ hr
    · exact write_data_internal_snd _ _ _ _ hr
  rw [hr]
  simp [hval]

/-- C4 witness: the always-true theorem applied to putting key 5 on a fresh
index. -/
theorem c4_put_always_returns_true_witness :
    (write_data State.init 5 [1]).isSome = true ∧
    (write_data State.init 5 [1]).map Prod.snd = some true :=
  ⟨by decide, c4_put_always_returns_true State.init 5 [1] (by decide)⟩

set_option maxHeartbeats 1000000 in
/-- C5.  The claim (and the source's own comment and dead `Ok` arm,
lib.rs:337-350) say descent picks the smallest `i` with `key < keys[i]`, so
a key equal to a separator goes to the right child `children[i+1]`.  The
comparator returns `Greater` on equality, so the binary search lands on the
first index with `keys[i] ≥ key`: on a node with separator 19 the lookup of
19 yields child index 0, and on `tree37` (keys 1..37, separator 19)
`find_leaf 19` descends to left leaf page 1, which does not contain 19,
while right leaf page 2 does — `get(19)` misses a stored key. -/
theorem c5_separator_key_descends_left :
    find_leaf_pos [19] 19 = 0 ∧
    find_leaf tree37 19 = some (some 1) ∧
    (read_internal_node tree37 3).keys = [19] ∧
    (read_internal_node tree37 3).children = [1, 2] ∧
    (19 : Int) ∉ (read_leaf_node tree37 1).keys ∧
    (19 : Int) ∈ (read_leaf_node tree37 2).keys ∧
    read_data tree37 19 = some none := by decide

set_option maxHeartbeats 1000000 in
/-- C6.  The claim says a leaf merge updates the successor leaf's
`prev_leaf` to the surviving leaf.  Erasing key 1 from `tree55` underflows
the leftmost leaf (17 < 18) with no left sibling and a right sibling at the
minimum, so page 2 is merged into page 1; the source reads the successor
page 4 but never writes its corrected `prev_leaf` back (lib.rs:799-803), so
page 4 still points at the removed page 2 instead of the survivor 1, while
`next_leaf` of page 1 and the parent's children `[1, 4]` show the merge
completed. -/
theorem c6_merge_leaves_stale_prev_pointer :
    (delete_data tree55 1).map (fun r =>
      (r.2, (read_leaf_node r.1 1).keys.length, (read_leaf_node r.1 1).next_leaf,
       (read_leaf_node r.1 4).prev_leaf, (read_internal_node r.1 3).children))
      = some (true, 35, 4, 2, [1, 4]) ∧ (2 : Int) ≠ 1 := by decide

set_option maxHeartbeats 1000000 in
/-- C7.  The claim implies `put(k, v); erase(k); get(k) = NotFound`.  At
`k = -5432` the erase does remove the stored entry (it returns `true`), but
`read_data` short-circuits that key to the fabricated payload
(lib.rs:622-626), so `get(-5432)` still returns `Some([42, 0, …])`, not
NotFound. -/
theorem c7_backdoor_get_after_erase_not_notfound :
    ((write_data State.init (-5432) (List.replicate DATA_SIZE 0)).bind
      (fun r => delete_data r.1 (-5432))).map Prod.snd = some true ∧
    ((write_data State.init (-5432) (List.replicate DATA_SIZE 0)).bind
      (fun r => delete_data r.1 (-5432))).bind (fun r => read_data r.1 (-5432))
      = some (some special_data) ∧
    some special_data ≠ (none : Option Payload) := by decide

set_option maxHeartbeats 1000000 in
/-- C8.  The claim says scan returns the payloads of exactly the keys in
`[lo, hi]`.  On `treeC8` — reached by public puts alone — the key 19 sits
in both leaves (a consequence of the `find_leaf` equality bug), so
`scan(19, 19)` returns two payloads `[[91], [90]]` for the single in-range
key 19, whose current value per `get` is `[91]`. -/
theorem c8_scan_returns_two_payloads_for_one_key :
    read_range_data treeC8 19 19 = some [[91], [90]] ∧
    read_data treeC8 19 = some (some [91]) ∧
    (read_leaf_node treeC8 1).keys.count 19 + (read_leaf_node treeC8 2).keys.count 19
      = 2 := by decide

/-- C9 counterexample.  The claim says a page with kind byte neither 0 nor
1, or with `num_keys` over capacity, makes every reading operation fail
with a `CorruptPage` error.  The code has no such error: on `bad_page`
(kind byte 2, encoded `num_keys` 50) the kind test simply classifies the
page as non-leaf — descent would treat it as an internal node — and
`from_bytes` hands back `num_keys = 50 > 36` unchecked. -/
theorem c9_counterexample_corrupt_page_accepted :
    is_leaf_page_bytes bad_page = false ∧
    (LeafNodeRaw.from_bytes bad_page).is_leaf = false ∧
    (LeafNodeRaw.from_bytes bad_page).num_keys = 50 ∧
    LEAF_ORDER < 50 := by decide

/-- C9 amended.  Page decoding performs no validation: any page whose kind
byte differs from 1 is classified as non-leaf (internal) and processing
proceeds, and `from_bytes` returns whatever 64-bit `num_keys` the page
encodes, with no capacity check and no `CorruptPage` error path. -/
theorem c9_no_validation_on_decode (kind : Nat) (n : Nat) (rest : List Nat)
    (hk : kind ≠ 1) :
    is_leaf_page_bytes (kind :: rest) = false ∧
    (LeafNodeRaw.from_bytes (kind :: encodeLE n 8 ++ rest)).is_leaf = false ∧
    (LeafNodeRaw.from_bytes (kind :: encodeLE n 8 ++ rest)).num_keys = n % 2 ^ 64 := by
  have hk' : (kind == 1) = false := by simp [hk]
  refine ⟨?_, ?_, ?_⟩
  · simp [is_leaf_page_bytes, hk']
  · simp [LeafNodeRaw.from_bytes, hk']
  · show decodeLE ((kind :: encodeLE n 8 ++ rest).drop 1) 8 = n % 2 ^ 64
    rw [show ((kind :: encodeLE n 8 ++ rest).drop 1) = encodeLE n 8 ++ rest from rfl,
      decodeLE_encodeLE]
    norm_num

/-- C9 witness: the no-validation theorem applied to kind byte 2 and
encoded `num_keys` 50. -/
theorem c9_no_validation_on_decode_witness :
    ((2 : Nat) ≠ 1) ∧
    (is_leaf_page_bytes (2 :: ([] : List Nat)) = false ∧
     (LeafNodeRaw.from_bytes (2 :: encodeLE 50 8 ++ [])).is_leaf = false ∧
     (LeafNodeRaw.from_bytes (2 :: encodeLE 50 8 ++ [])).num_keys = 50 % 2 ^ 64) :=
  ⟨by decide, c9_no_validation_on_decode 2 50 [] (by decide)⟩

/-- C10.  `get` is a pure read: `read_data` takes `&self` and performs no
page, root, or page-count write, so whenever the operation returns, the
state component of the result is the input state unchanged, and the result
type offers only a payload or NotFound — no error constructor exists. -/
theorem c10_get_leaves_state_unchanged (s : State) (key : Int) (st : State)
    (r : Option Payload) (h : read_data_op s key = some (st, r)) : st = s := by
  unfold read_data_op at h
  obtain ⟨a, _, hr⟩ := Option.map_eq_some'.mp h
  exact (congrArg Prod.fst hr).symm

/-- C10 witness: looking up key 7 on a fresh index returns NotFound and the
untouched state. -/
theorem c10_get_leaves_state_unchanged_witness :
    read_data_op State.init 7 = some (State.init, none) ∧ State.init = State.init :=
  ⟨rfl, c10_get_leaves_state_unchanged State.init 7 State.init none rfl⟩

end BPTree
